import Mathlib

/-!
Verification development for the toutiao-auto-publisher repository.

The definitions below are shallow embeddings of the Python source:

* Text handling (ai_analyzer.extract_title_and_content) is modelled over
  List Char, with Python string primitives (strip, split, replace,
  startswith, slicing) re-implemented as structural functions so that the
  kernel can evaluate them on concrete inputs.
* The selector-cache lookup (publisher.find_element_with_cache) is modelled
  with an abstract resolver of type String -> Option Nat standing for the
  Selenium wait: for a locator string it returns an element handle when the
  locator resolves within the timeout, and none otherwise.
* The orchestration loop (ai_analyzer.process_hot_searches) is modelled as
  a trace function: per-item external behaviour (article generation, cover
  generation attempts, publish success or exception) is scripted by an
  ItemScript, and the loop body is translated into the list of observable
  events it performs, in order.
* Persistence (ai_analyzer.load_published_records / save_published_record,
  publisher.load_selector_cache) is modelled over small file-state types
  covering the missing / unreadable / well-formed / wrongly-shaped cases.
* The publish session steps (ToutiaoPublisher._submit,
  _ensure_single_cover_mode, _confirm_cover_upload, _upload_cover_image,
  publish) are modelled with an abstract role-availability function
  String -> Bool and a log-event trace that records log levels.
-/

/-! ### Python string primitives over List Char -/

/-- Python str.strip(): remove leading and trailing whitespace. -/
def pyStrip (s : List Char) : List Char :=
  ((s.dropWhile Char.isWhitespace).reverse.dropWhile Char.isWhitespace).reverse

/-- Python s.split(chr(10)): split on newline, never returning an empty list. -/
def pySplitNl : List Char → List (List Char)
  | [] => [[]]
  | c :: cs =>
    let r := pySplitNl cs
    if c = '\n' then [] :: r
    else
      match r with
      | [] => [[c]]
      | h :: t => (c :: h) :: t

/-- Helper for removeAll, structurally recursive on explicit fuel.
Removes every non-overlapping occurrence of pat, scanning left to right. -/
def removeAllAux (pat : List Char) : Nat → List Char → List Char
  | 0, s => s
  | _ + 1, [] => []
  | fuel + 1, c :: cs =>
    if pat.isPrefixOf (c :: cs) then removeAllAux pat fuel ((c :: cs).drop pat.length)
    else c :: removeAllAux pat fuel cs

/-- Python s.replace(pat, two empty quotes): delete all occurrences of pat. -/
def removeAll (s pat : List Char) : List Char :=
  if pat.isEmpty then s else removeAllAux pat (s.length + 1) s

/-- The full-width title marker used by ai_analyzer.extract_title_and_content. -/
def markerFW : List Char := ['标', '题', '：']

/-- The half-width title marker used by ai_analyzer.extract_title_and_content. -/
def markerHW : List Char := ['标', '题', ':']

/-- Whether a raw line, once stripped, begins with either title marker. -/
def isMarkerLine (l : List Char) : Bool :=
  markerFW.isPrefixOf (pyStrip l) || markerHW.isPrefixOf (pyStrip l)

/-- The title the source derives from a marker line: strip the line, delete all
occurrences of the matching marker, strip again. -/
def markerTitle (l : List Char) : List Char :=
  let ls := pyStrip l
  if markerFW.isPrefixOf ls then pyStrip (removeAll ls markerFW)
  else pyStrip (removeAll ls markerHW)

/-- The title-search loop of extract_title_and_content (ai_analyzer.py lines
77 to 86): find the first line whose stripped form starts with a marker,
returning the derived title together with the 1-based index of the following
line (the content start index the source records before breaking). -/
def findTitleLoop : List (List Char) → Option (List Char × Nat)
  | [] => none
  | line :: rest =>
    let l := pyStrip line
    if markerFW.isPrefixOf l then some (pyStrip (removeAll l markerFW), 1)
    else if markerHW.isPrefixOf l then some (pyStrip (removeAll l markerHW), 1)
    else
      match findTitleLoop rest with
      | some (t, i) => some (t, i + 1)
      | none => none

/-- Python chr(10).join(lines). -/
def joinLines (ls : List (List Char)) : List Char := List.intercalate ['\n'] ls

/-- Body computation of extract_title_and_content (lines 104 to 109): drop
leading blank lines, join with newlines, strip. -/
def joinBody (ls : List (List Char)) : List Char :=
  pyStrip (joinLines (ls.dropWhile (fun l => (pyStrip l).isEmpty)))

/-- Python truthiness test for an optional string: None and the empty string
are falsy. -/
def pyFalsyT : Option (List Char) → Bool
  | none => true
  | some t => t.isEmpty

/-- ai_analyzer.extract_title_and_content (lines 63 to 111), translated
clause by clause: the marker-search loop, the first-line-as-title fallback
(length strictly between 5 and 50), the truncate-to-30 fallback, then the
body computed from the recorded content start index with leading blank lines
dropped.  The input split always yields a nonempty line list, so the final
title default is never exercised. -/
def extract_title_and_content (article_text : List Char) : List Char × List Char :=
  let lines := pySplitNl (pyStrip article_text)
  let s1 : Option (List Char) × Nat :=
    match findTitleLoop lines with
    | some (t, i) => (some t, i)
    | none => (none, 0)
  let s2 : Option (List Char) × Nat :=
    if pyFalsyT s1.1 ∧ lines ≠ [] then
      let fl := pyStrip (lines.headD [])
      if 5 < fl.length ∧ fl.length < 50 then (some fl, 1) else s1
    else s1
  let s3 : Option (List Char) × Nat :=
    if pyFalsyT s2.1 ∧ lines ≠ [] then (some ((pyStrip (lines.headD [])).take 30), 0)
    else s2
  (s3.1.getD [], joinBody (lines.drop s3.2))

/-! ### Selector resolution with cache (publisher.find_element_with_cache) -/

/-- Result of one find_element_with_cache call: the returned value (element
handle paired with the locator that worked, or none), the cache mapping after
the call, the locators attempted through the driver wait in order, and how
many times save_selector_cache was invoked. -/
structure FecOut where
  found : Option (Nat × String)
  cache : List (String × String)
  tried : List String
  saves : Nat
  deriving Repr, DecidableEq

/-- Python cache.get(key) over an association-list model of the JSON object. -/
def lookupCache (cache : List (String × String)) (k : String) : Option String :=
  (cache.find? (fun p => p.1 == k)).map (fun p => p.2)

/-- Python cache[key] = v: overwrite an existing binding or append a new one. -/
def setCacheKey (cache : List (String × String)) (k v : String) : List (String × String) :=
  if (cache.find? (fun p => p.1 == k)).isSome then
    cache.map (fun p => if p.1 == k then (k, v) else p)
  else cache ++ [(k, v)]

/-- The fallback loop of find_element_with_cache (publisher.py lines 171 to
188): try every candidate in order; on the first that resolves, write it to
the cache under the key, save the cache once, and return. -/
def fecLoop (resolve : String → Option Nat) (key : String)
    (cache : List (String × String)) : List String → FecOut
  | [] => ⟨none, cache, [], 0⟩
  | s :: rest =>
    match resolve s with
    | some e => ⟨some (e, s), setCacheKey cache key s, [s], 1⟩
    | none =>
      let r := fecLoop resolve key cache rest
      ⟨r.found, r.cache, s :: r.tried, r.saves⟩

/-- publisher.find_element_with_cache (lines 139 to 190).  The cached locator
is attempted first only when it is truthy (non-empty, mirroring the Python
truthiness test on the cached string) and is a member of the candidate list;
a cache hit returns without writing or saving the cache, a cached-locator
failure falls through to the full candidate loop with the failed attempt
recorded. -/
def find_element_with_cache (resolve : String → Option Nat) (key : String)
    (selectors : List String) (cache : List (String × String)) : FecOut :=
  match lookupCache cache key with
  | some c =>
    if c ≠ "" ∧ c ∈ selectors then
      match resolve c with
      | some e => ⟨some (e, c), cache, [c], 0⟩
      | none =>
        let r := fecLoop resolve key cache selectors
        ⟨r.found, r.cache, c :: r.tried, r.saves⟩
    else fecLoop resolve key cache selectors
  | none => fecLoop resolve key cache selectors

/-! ### Orchestration loop trace (ai_analyzer.process_hot_searches) -/

/-- Observable events of one process_hot_searches run, in program order.
sleepSec n stands for time.sleep(n); sleepPublishDelay for the configured
inter-publish delay; removeCover for the os.remove call on the cover file. -/
inductive Ev where
  | skipMissing
  | genArticle (topic : String)
  | skipGenFail
  | coverAttempt (n : Nat)
  | sleepSec (n : Nat)
  | coverExhausted
  | coverSkip
  | publishCall (title : String)
  | publishErr
  | record (url : String)
  | removeCover (path : String)
  | sleepPublishDelay
  deriving Repr, DecidableEq

/-- One element of the hot-search work list: the optional title and url
fields of the JSON object. -/
structure Item where
  title : Option String
  url : Option String
  deriving Repr, DecidableEq

/-- Scripted behaviour of the external collaborators for one work item:
the (title, content) pair returned by generate_article_draft, whether the
n-th cover-generation attempt succeeds, the path the successful attempt
returns, and whether publisher.publish returns normally (true) or raises
(false). -/
structure ItemScript where
  genTitle : String
  genContent : String
  coverOk : Nat → Bool
  coverPath : String
  publishOk : Bool

/-- The cover retry loop body (ai_analyzer.py lines 297 to 328, identical in
publisher.publish_directory lines 557 to 585): for attempt in range(1, 4),
try the generator; succeed and break, or sleep 2 seconds when attempts
remain, or log the exhaustion error on the last failure. -/
def coverRetryGo (ok : Nat → Bool) : List Nat → Bool × List Ev
  | [] => (false, [])
  | n :: rest =>
    if ok n then (true, [Ev.coverAttempt n])
    else if n < 3 then
      let r := coverRetryGo ok rest
      (r.1, Ev.coverAttempt n :: Ev.sleepSec 2 :: r.2)
    else (false, [Ev.coverAttempt n, Ev.coverExhausted])

/-- The cover retry loop with the source's hard-coded max_retries = 3. -/
def coverRetry (ok : Nat → Bool) : Bool × List Ev := coverRetryGo ok [1, 2, 3]

/-- The publish step of the loop body (ai_analyzer.py lines 334 to 359):
publish; on success record the url, remove the cover file when one is
present, then sleep the publish delay; on an exception log the error and
fall through to the next item. -/
def publishPart (s : ItemScript) (title url : String) (cover : Option String) : List Ev :=
  if s.publishOk then
    [Ev.publishCall title, Ev.record url] ++
      (match cover with
       | some p => if p ≠ "" then [Ev.removeCover p] else []
       | none => []) ++ [Ev.sleepPublishDelay]
  else [Ev.publishCall title, Ev.publishErr]

/-- The per-item body of process_hot_searches (lines 269 to 359) for a run
with a publisher: skip items missing a truthy title or url, generate the
article, skip on empty content, derive the display title, run the cover
retry loop when cover_mode is generate (skipping the item when it exhausts),
then publish. -/
def itemTrace (coverMode : String) (s : ItemScript) (it : Item) : List Ev :=
  match it.title, it.url with
  | some topic, some url =>
    if topic = "" ∨ url = "" then [Ev.skipMissing]
    else
      Ev.genArticle topic ::
        (if s.genContent = "" then [Ev.skipGenFail]
         else
           let title := if s.genTitle = "" then topic else s.genTitle
           if coverMode = "generate" then
             let r := coverRetry s.coverOk
             r.2 ++ (if r.1 then publishPart s title url (some s.coverPath) else [Ev.coverSkip])
           else publishPart s title url none)
  | _, _ => [Ev.skipMissing]

/-- Python: item.get(url-key) not in published_urls, negated — membership of
the item's url in the published set (an absent url is never a member). -/
def urlMem (it : Item) (pub : List String) : Bool :=
  match it.url with
  | some u => pub.contains u
  | none => false

/-- The resume filter (lines 230 to 239): keep items whose url is not in the
published set. -/
def filterUnpublished (pub : List String) (items : List Item) : List Item :=
  items.filter (fun it => !(urlMem it pub))

/-- The work list actually iterated by process_hot_searches: the resume
filter runs only when skip_published is set and the loaded set is nonempty
(lines 230 to 239), and the limit truncation runs afterwards, only when the
limit is truthy (lines 241 to 242, Python: if limit, so a zero limit does
not truncate). -/
def selectedItems (skipPub : Bool) (pub : List String) (limit : Option Nat)
    (items : List Item) : List Item :=
  let items1 := if skipPub ∧ pub ≠ [] then filterUnpublished pub items else items
  match limit with
  | some n => if n ≠ 0 then items1.take n else items1
  | none => items1

/-- The main for-loop over the selected items, with the per-item external
behaviour given by env. -/
def runItems (env : Item → ItemScript) (coverMode : String) (items : List Item) : List Ev :=
  items.flatMap (fun it => itemTrace coverMode (env it) it)

/-- ai_analyzer.process_hot_searches (lines 201 to 367) for a run with a
publisher, as the event trace it produces. -/
def process_hot_searches (env : Item → ItemScript) (coverMode : String)
    (skipPub : Bool) (pub : List String) (limit : Option Nat)
    (items : List Item) : List Ev :=
  runItems env coverMode (selectedItems skipPub pub limit items)

/-! ### Published-record persistence (ai_analyzer.py lines 136 to 176) -/

/-- One element of a parsed JSON array in the record file: a JSON string, a
hashable non-string scalar (number, bool, null — the tag distinguishes
unequal scalars), or an unhashable value (a nested array or object), on
which the Python set constructor raises TypeError. -/
inductive RecEntry where
  | str (s : String)
  | other (tag : Nat)
  | unhashable (tag : Nat)
  deriving Repr, DecidableEq

/-- The value under the urls key of a parsed record object: a JSON array of
entries, a JSON string (iterable — set() of it yields its one-character
strings), a JSON object (iterable — set() of it yields its keys), or a
non-iterable scalar (number, bool, null), on which set() raises TypeError. -/
inductive UrlsVal where
  | arr (xs : List RecEntry)
  | strVal (s : String)
  | keys (ks : List String)
  | nonIterable
  deriving Repr, DecidableEq

/-- States of the published-record file: absent, unreadable (an OSError or a
JSON parse error, both caught), a JSON array of arbitrary entries, an object
with a urls key holding an arbitrary value, or any other parseable JSON
shape (an object without urls, or a top-level scalar). -/
inductive RecFile where
  | missing
  | unreadable
  | jsonList (xs : List RecEntry)
  | jsonUrls (v : UrlsVal)
  | jsonOther
  deriving Repr, DecidableEq

/-- Whether a parsed array element is unhashable (a nested list or dict). -/
def isUnhashableEntry : RecEntry → Bool
  | RecEntry.unhashable _ => true
  | _ => false

/-- Outcome of load_published_records: the returned set (modelled as a
duplicate-free list of entries) with whether a warning was logged, or an
uncaught TypeError.  The except clause of the source catches only
json.JSONDecodeError and OSError, so a TypeError raised by set(...) inside
the try propagates to the caller. -/
inductive RecLoad where
  | ok (xs : List RecEntry) (warned : Bool)
  | typeError
  deriving Repr, DecidableEq

/-- Python set(xs) over a parsed JSON array: raises TypeError when any
element is unhashable, otherwise the deduplicated elements. -/
def pySetOfEntries (xs : List RecEntry) : Option (List RecEntry) :=
  if xs.any isUnhashableEntry then none else some xs.dedup

/-- ai_analyzer.load_published_records.  A missing file returns the empty
set silently (before the try block); read and parse failures return the
empty set with a warning; a parsed list or a urls array is passed to set(),
which raises an uncaught TypeError on an unhashable element and otherwise
returns its elements whatever their type, with no warning and no shape
check; a urls string or object is iterable, so set() silently yields its
characters or keys; a non-iterable urls value raises an uncaught TypeError;
any other parseable shape returns the empty set with a warning. -/
def load_published_records : RecFile → RecLoad
  | RecFile.missing => RecLoad.ok [] false
  | RecFile.unreadable => RecLoad.ok [] true
  | RecFile.jsonList xs =>
    match pySetOfEntries xs with
    | some s => RecLoad.ok s false
    | none => RecLoad.typeError
  | RecFile.jsonUrls v =>
    match v with
    | UrlsVal.arr xs =>
      match pySetOfEntries xs with
      | some s => RecLoad.ok s false
      | none => RecLoad.typeError
    | UrlsVal.strVal s =>
      RecLoad.ok ((s.data.map (fun c => RecEntry.str (String.mk [c]))).dedup) false
    | UrlsVal.keys ks => RecLoad.ok ((ks.map RecEntry.str).dedup) false
    | UrlsVal.nonIterable => RecLoad.typeError
  | RecFile.jsonOther => RecLoad.ok [] true

/-- ai_analyzer.save_published_record: reload the persisted set from the
current file state (outside the function's own try, so a TypeError from the
reload propagates and nothing is written — result none), add the url string
to the set, and write the whole set back as a plain JSON array.  The write
itself only warns on OSError; the model treats the write as succeeding. -/
def save_published_record (url : String) (f : RecFile) : Option RecFile :=
  match load_published_records f with
  | RecLoad.typeError => none
  | RecLoad.ok published _ =>
    some (RecFile.jsonList
      (if RecEntry.str url ∈ published then published
       else published ++ [RecEntry.str url]))

/-! ### Selector-cache persistence (publisher.py lines 116 to 126) -/

/-- States of the selector-cache file: absent, unreadable or unparseable,
a JSON object (modelled as an association list), or valid JSON that is not
an object. -/
inductive CacheFile where
  | missing
  | unreadable
  | jsonObj (m : List (String × String))
  | jsonNonObj
  deriving Repr, DecidableEq

/-- What load_selector_cache hands back: the parsed object, or the parsed
non-object JSON value (the source returns whatever json.load produced,
without a shape check). -/
inductive LoadedCache where
  | map (m : List (String × String))
  | nonObj
  deriving Repr, DecidableEq

/-- publisher.load_selector_cache: a missing file yields the empty mapping
with no log; any exception while reading or parsing yields the empty mapping
after a warning; a parseable file is returned as parsed, object or not. -/
def load_selector_cache : CacheFile → LoadedCache × Bool
  | CacheFile.missing => (LoadedCache.map [], false)
  | CacheFile.unreadable => (LoadedCache.map [], true)
  | CacheFile.jsonObj m => (LoadedCache.map m, false)
  | CacheFile.jsonNonObj => (LoadedCache.nonObj, false)

/-! ### Publish session steps (publisher.ToutiaoPublisher) -/

/-- Log levels used by the session steps. -/
inductive Lvl where
  | info
  | warn
  | debug
  deriving Repr, DecidableEq

/-- Observable events of the session steps: element clicks by role key,
log messages (level and a short tag), the title and content fills, and the
file-path submission to the cover input. -/
inductive SEv where
  | click (role : String)
  | log (lvl : Lvl) (tag : String)
  | fillTitle
  | fillContent
  | sendCoverFile
  deriving Repr, DecidableEq

/-- ToutiaoPublisher._ensure_single_cover_mode (lines 322 to 342): click the
single-cover radio when its role resolves, otherwise log a warning and
continue. -/
def ensure_single_cover_mode (found : String → Bool) : List SEv :=
  if found "single_cover_mode" then
    [SEv.click "single_cover_mode", SEv.log Lvl.info "single_cover_on"]
  else [SEv.log Lvl.warn "single_cover_switch_missing"]

/-- ToutiaoPublisher._ensure_no_cover_mode (lines 344 to 365): same shape for
the no-cover radio. -/
def ensure_no_cover_mode (found : String → Bool) : List SEv :=
  if found "no_cover_mode" then
    [SEv.click "no_cover_mode", SEv.log Lvl.info "no_cover_on"]
  else [SEv.log Lvl.warn "no_cover_switch_missing"]

/-- ToutiaoPublisher._confirm_cover_upload (lines 430 to 455): click the
confirmation button when its role resolves, otherwise log at debug level
(not warning) and continue. -/
def confirm_cover_upload (found : String → Bool) : List SEv :=
  if found "cover_upload_confirm" then
    [SEv.click "cover_upload_confirm", SEv.log Lvl.info "cover_confirm_clicked"]
  else [SEv.log Lvl.debug "cover_confirm_missing"]

/-- ToutiaoPublisher._upload_cover_image (lines 367 to 428): best-effort
single-cover switch, then the cached-selector file input, then the
click-the-area fallback, then give up with a warning; each successful upload
path runs the confirmation step. -/
def upload_cover_image (found : String → Bool) : List SEv :=
  ensure_single_cover_mode found ++
    (if found "cover_upload_input" then
       [SEv.sendCoverFile, SEv.log Lvl.info "cover_uploaded"] ++ confirm_cover_upload found
     else if found "cover_upload_area_fallback" then
       [SEv.sendCoverFile, SEv.log Lvl.info "cover_uploaded_fallback"] ++ confirm_cover_upload found
     else [SEv.log Lvl.warn "cover_upload_skipped"])

/-- ToutiaoPublisher._submit (lines 457 to 514): the preview-and-publish
button is mandatory — when its role fails to resolve a RuntimeError is
raised (first component true) with no further step; the confirm-publish
button is optional — absence logs a warning and the flow completes. -/
def submit_step (found : String → Bool) : Bool × List SEv :=
  if found "preview_publish_btn" then
    let evs := [SEv.click "preview_publish_btn", SEv.log Lvl.info "preview_clicked"]
    if found "confirm_publish_btn" then
      (false, evs ++ [SEv.click "confirm_publish_btn", SEv.log Lvl.info "confirm_clicked"])
    else (false, evs ++ [SEv.log Lvl.warn "confirm_publish_missing"])
  else (true, [])

/-- ToutiaoPublisher.publish (lines 273 to 295): fill title and content
(modelled as always succeeding), handle the cover (upload when a cover is
provided and requested, switch to no-cover mode when cover use is off,
nothing when a cover is requested but absent), then submit.  The first
component is true when the flow raised (only the mandatory submit step
raises here). -/
def publish_flow (found : String → Bool) (hasCover useCover : Bool) : Bool × List SEv :=
  let mid :=
    if hasCover && useCover then upload_cover_image found
    else if !useCover then ensure_no_cover_mode found
    else []
  let s := submit_step found
  (s.1, [SEv.fillTitle, SEv.fillContent] ++ mid ++ s.2)

/-- Whether a session event is a warning-level log. -/
def isWarnEv : SEv → Bool
  | SEv.log Lvl.warn _ => true
  | _ => false

/-! ### Concrete sample values used by witnesses -/

/-- A resolver for the C1 witness: locator A resolves to handle 5, nothing
else resolves (in particular the empty locator does not). -/
def c1res : String → Option Nat := fun s => if s = "A" then some 5 else none

/-- A work item with both fields present. -/
def sampleItem : Item := ⟨some "topic1", some "url1"⟩

/-- A script whose cover generation succeeds at once and whose publish
succeeds. -/
def sampleScriptOk : ItemScript := ⟨"T1", "body", fun _ => true, "cover.png", true⟩

/-- A script whose cover generation succeeds at once and whose publish
raises. -/
def sampleScriptFail : ItemScript := ⟨"T1", "body", fun _ => true, "cover.png", false⟩

/-- A script whose cover generation fails twice then succeeds. -/
def sampleScriptRetry : ItemScript := ⟨"T1", "body", fun n => n == 3, "cover.png", true⟩

/-- The C6 failing input: cover generated on the first attempt, publish
raises. -/
def c6Item : Item := ⟨some "t", some "u"⟩

/-- The C6 failing script. -/
def c6Script : ItemScript := ⟨"T", "body", fun _ => true, "cover.png", false⟩

/-- Whether an orchestrator event is the cover-file removal. -/
def isRemoveCover : Ev → Bool
  | Ev.removeCover _ => true
  | _ => false

/-- Whether an orchestrator event is a publish call. -/
def isPublishCall : Ev → Bool
  | Ev.publishCall _ => true
  | _ => false

/-- Whether an orchestrator event is a record write. -/
def isRecordEv : Ev → Bool
  | Ev.record _ => true
  | _ => false

/-- Whether an orchestrator event is a cover attempt. -/
def isCoverAttempt : Ev → Bool
  | Ev.coverAttempt _ => true
  | _ => false

/-- Events the cover retry loop can emit. -/
def isRetryEv : Ev → Bool
  | Ev.coverAttempt _ => true
  | Ev.sleepSec _ => true
  | Ev.coverExhausted => true
  | _ => false

/-! ### Helper lemmas -/

theorem fecLoop_all_none (resolve : String → Option Nat) (key : String)
    (cache : List (String × String)) :
    ∀ sels : List String, (∀ s ∈ sels, resolve s = none) →
      fecLoop resolve key cache sels = ⟨none, cache, sels, 0⟩ := by
  intro sels h
  induction sels with
  | nil => rfl
  | cons x rest ih =>
    have hx : resolve x = none := h x (by simp)
    have ih2 := ih (fun s hs => h s (by simp [hs]))
    simp [fecLoop, hx, ih2]

theorem fecLoop_first_some (resolve : String → Option Nat) (key : String)
    (cache : List (String × String)) :
    ∀ (sels : List String) (s : String) (e : Nat),
      sels.find? (fun x => (resolve x).isSome) = some s → resolve s = some e →
      (fecLoop resolve key cache sels).found = some (e, s) ∧
      (fecLoop resolve key cache sels).cache = setCacheKey cache key s ∧
      (fecLoop resolve key cache sels).saves = 1 := by
  intro sels
  induction sels with
  | nil => intro s e hf _; simp at hf
  | cons x rest ih =>
    intro s e hf he
    cases hx : resolve x with
    | some e0 =>
      simp only [List.find?_cons, hx, Option.isSome_some] at hf
      cases hf
      have : e = e0 := by rw [hx] at he; exact (Option.some.inj he).symm
      subst this
      simp [fecLoop, hx]
    | none =>
      simp only [List.find?_cons, hx, Option.isSome_none] at hf
      have := ih s e hf he
      simp [fecLoop, hx, this.1, this.2.1, this.2.2]

/-! ### Claim C1 -/

/-- Claim C1: for every role key, candidate list and cache state (and any
resolver under which the empty locator never resolves — an empty locator
string is an invalid XPath expression and the wait always fails on it), if
the cache maps the key to a locator that is a member of the candidates and
that locator resolves, find_element_with_cache returns that element and
locator having attempted only that locator, with the cache unchanged and
never saved; otherwise the first candidate in list order that resolves is
written to the cache under the key and the cache is saved exactly once, and
if no candidate resolves the call returns none with the cache untouched and
unsaved. -/
theorem c1_find_element_with_cache (resolve : String → Option Nat) (key : String)
    (selectors : List String) (cache : List (String × String))
    (hres : resolve "" = none) :
    (∀ c e, lookupCache cache key = some c → c ∈ selectors → resolve c = some e →
      find_element_with_cache resolve key selectors cache = ⟨some (e, c), cache, [c], 0⟩) ∧
    ((∀ c, lookupCache cache key = some c → c ∈ selectors → resolve c = none) →
      (∀ s e, selectors.find? (fun x => (resolve x).isSome) = some s → resolve s = some e →
        (find_element_with_cache resolve key selectors cache).found = some (e, s) ∧
        (find_element_with_cache resolve key selectors cache).cache = setCacheKey cache key s ∧
        (find_element_with_cache resolve key selectors cache).saves = 1) ∧
      (selectors.find? (fun x => (resolve x).isSome) = none →
        (find_element_with_cache resolve key selectors cache).found = none ∧
        (find_element_with_cache resolve key selectors cache).cache = cache ∧
        (find_element_with_cache resolve key selectors cache).saves = 0)) := by
  constructor
  · intro c e hl hmem hre
    have hc : c ≠ "" := by
      intro hceq
      rw [hceq, hres] at hre
      exact Option.noConfusion hre
    simp [find_element_with_cache, hl, hc, hmem, hre]
  · intro h2
    constructor
    · intro s e hf hre
      cases hl : lookupCache cache key with
      | none =>
        simp only [find_element_with_cache, hl]
        exact fecLoop_first_some resolve key cache selectors s e hf hre
      | some c =>
        by_cases hcm : c ≠ "" ∧ c ∈ selectors
        · have hcnone : resolve c = none := h2 c hl hcm.2
          have hrest := fecLoop_first_some resolve key cache selectors s e hf hre
          simp only [find_element_with_cache, hl, if_pos hcm, hcnone]
          exact hrest
        · simp only [find_element_with_cache, hl, if_neg hcm]
          exact fecLoop_first_some resolve key cache selectors s e hf hre
    · intro hf
      have hall : ∀ s ∈ selectors, resolve s = none := by
        intro s hs
        have := List.find?_eq_none.mp hf s hs
        cases hcase : resolve s with
        | none => rfl
        | some e => rw [hcase] at this; simp at this
      have hloop := fecLoop_all_none resolve key cache selectors hall
      cases hl : lookupCache cache key with
      | none => simp [find_element_with_cache, hl, hloop]
      | some c =>
        by_cases hcm : c ≠ "" ∧ c ∈ selectors
        · have hcnone : resolve c = none := hall c hcm.2
          simp [find_element_with_cache, hl, if_pos hcm, hcnone, hloop]
        · simp [find_element_with_cache, hl, if_neg hcm, hloop]

/-- Witness for C1: a cache hit on locator A returns handle 5 with locator A,
attempts nothing else, and neither rewrites nor saves the cache. -/
theorem c1_witness :
    find_element_with_cache c1res "k" ["A", "B"] [("k", "A")] =
      ⟨some (5, "A"), [("k", "A")], ["A"], 0⟩ :=
  (c1_find_element_with_cache c1res "k" ["A", "B"] [("k", "A")]
    (by decide)).1 "A" 5 (by decide) (by decide) (by decide)

/-! ### Claim C3 -/

theorem pySplitNl_ne_nil : ∀ s : List Char, pySplitNl s ≠ [] := by
  intro s
  induction s with
  | nil => simp [pySplitNl]
  | cons c cs ih =>
    simp only [pySplitNl]
    by_cases hc : c = '\n'
    · simp [hc]
    · simp only [if_neg hc]
      cases hr : pySplitNl cs with
      | nil => simp
      | cons h t => simp

theorem findTitleLoop_marker (l : List Char) (post : List (List Char)) :
    ∀ pre : List (List Char), (∀ x ∈ pre, isMarkerLine x = false) →
      isMarkerLine l = true →
      findTitleLoop (pre ++ l :: post) = some (markerTitle l, pre.length + 1) := by
  intro pre
  induction pre with
  | nil =>
    intro _ hl
    by_cases hfw : markerFW.isPrefixOf (pyStrip l) = true
    · simp [findTitleLoop, markerTitle, hfw]
    · have hhw : markerHW.isPrefixOf (pyStrip l) = true := by
        simp only [isMarkerLine, Bool.or_eq_true] at hl
        exact hl.resolve_left hfw
      simp [findTitleLoop, markerTitle, hfw, hhw]
  | cons x pre' ih =>
    intro hpre hl
    have hx : isMarkerLine x = false := hpre x (by simp)
    have hxfw : markerFW.isPrefixOf (pyStrip x) = false := by
      simp only [isMarkerLine, Bool.or_eq_false_iff] at hx
      exact hx.1
    have hxhw : markerHW.isPrefixOf (pyStrip x) = false := by
      simp only [isMarkerLine, Bool.or_eq_false_iff] at hx
      exact hx.2
    have ih2 := ih (fun y hy => hpre y (by simp [hy])) hl
    simp only [List.cons_append, findTitleLoop, hxfw, hxhw, List.append_eq]
    rw [ih2]
    simp [Nat.add_assoc]

theorem findTitleLoop_no_marker :
    ∀ lines : List (List Char), (∀ x ∈ lines, isMarkerLine x = false) →
      findTitleLoop lines = none := by
  intro lines
  induction lines with
  | nil => intro _; rfl
  | cons x rest ih =>
    intro h
    have hx : isMarkerLine x = false := h x (by simp)
    have hxfw : markerFW.isPrefixOf (pyStrip x) = false := by
      simp only [isMarkerLine, Bool.or_eq_false_iff] at hx
      exact hx.1
    have hxhw : markerHW.isPrefixOf (pyStrip x) = false := by
      simp only [isMarkerLine, Bool.or_eq_false_iff] at hx
      exact hx.2
    have ih2 := ih (fun y hy => h y (by simp [hy]))
    simp [findTitleLoop, hxfw, hxhw, ih2]

theorem drop_len_succ {α : Type} (pre : List α) (l : α) (post : List α) :
    (pre ++ l :: post).drop (pre.length + 1) = post := by
  have : pre ++ l :: post = (pre ++ [l]) ++ post := by simp
  rw [this, List.drop_left' (by simp)]

/-- Claim C3 is false as stated: on the input whose first line is exactly the
bare full-width marker, branch 1 matches a non-empty marker line, so the
claim prescribes the empty remainder as title and the next line as body; the
source instead falls through (the empty extracted title is falsy) and ends
in the truncation branch, returning the marker itself as title with the
marker line still inside the body. -/
theorem c3_counterexample :
    isMarkerLine ("标题：".data) = true ∧ "标题：".data ≠ ([] : List Char) ∧
    pySplitNl (pyStrip ("标题：\nABC".data)) = ["标题：".data, "ABC".data] ∧
    markerTitle ("标题：".data) = [] ∧
    extract_title_and_content ("标题：\nABC".data) ≠
      (markerTitle ("标题：".data), joinBody ["ABC".data]) ∧
    extract_title_and_content ("标题：\nABC".data) =
      ("标题：".data, "标题：\nABC".data) := by
  decide

/-- Claim C3 (amended): branch 1 applies only when the first marker line
yields a non-empty title after the marker is deleted and the result stripped;
a marker line whose extracted title is empty falls through to the later
branches exactly as if no marker line existed.  With that correction: if some
line of the split, stripped input begins (after stripping) with a title
marker and the extracted title is non-empty, the first such line provides the
title and the body starts at the next line, leading blank lines stripped;
otherwise, if the stripped first line has length strictly between 5 and 50 it
becomes the title with the body starting at line 2; otherwise the title is
the stripped first line truncated to 30 characters and the body starts at
line 1, including the title line; leading blank lines of the body are always
stripped. -/
theorem extract_of_loop_some (s t : List Char) (i : Nat)
    (hloop : findTitleLoop (pySplitNl (pyStrip s)) = some (t, i))
    (ht : t.isEmpty = false) :
    extract_title_and_content s = (t, joinBody ((pySplitNl (pyStrip s)).drop i)) := by
  simp [extract_title_and_content, hloop, pyFalsyT, ht]

theorem extract_of_falsy (s l0 : List Char) (ls : List (List Char))
    (hL : pySplitNl (pyStrip s) = l0 :: ls)
    (hv : findTitleLoop (l0 :: ls) = none ∨
      ∃ i, findTitleLoop (l0 :: ls) = some ([], i)) :
    extract_title_and_content s =
      if 5 < (pyStrip l0).length ∧ (pyStrip l0).length < 50 then
        (pyStrip l0, joinBody ls)
      else ((pyStrip l0).take 30, joinBody (l0 :: ls)) := by
  by_cases hlen : 5 < (pyStrip l0).length ∧ (pyStrip l0).length < 50
  · have hfl : (pyStrip l0).isEmpty = false := by
      cases hfl0 : pyStrip l0 with
      | nil => rw [hfl0] at hlen; simp at hlen
      | cons a b => rfl
    rcases hv with hloop | ⟨i, hloop⟩ <;>
      simp [extract_title_and_content, hL, hloop, pyFalsyT, hlen, hfl]
  · rcases hv with hloop | ⟨i, hloop⟩ <;>
      simp [extract_title_and_content, hL, hloop, pyFalsyT, hlen]

theorem c3_extract_branches (s : List Char) :
    (∀ pre l post, pySplitNl (pyStrip s) = pre ++ l :: post →
      (∀ x ∈ pre, isMarkerLine x = false) → isMarkerLine l = true →
      markerTitle l ≠ [] →
      extract_title_and_content s = (markerTitle l, joinBody post)) ∧
    (((∀ x ∈ pySplitNl (pyStrip s), isMarkerLine x = false) ∨
      (∃ pre l post, pySplitNl (pyStrip s) = pre ++ l :: post ∧
        (∀ x ∈ pre, isMarkerLine x = false) ∧ isMarkerLine l = true ∧
        markerTitle l = [])) →
      ((5 < (pyStrip ((pySplitNl (pyStrip s)).headD [])).length ∧
          (pyStrip ((pySplitNl (pyStrip s)).headD [])).length < 50 →
        extract_title_and_content s =
          (pyStrip ((pySplitNl (pyStrip s)).headD []),
            joinBody ((pySplitNl (pyStrip s)).drop 1))) ∧
       (¬ (5 < (pyStrip ((pySplitNl (pyStrip s)).headD [])).length ∧
          (pyStrip ((pySplitNl (pyStrip s)).headD [])).length < 50) →
        extract_title_and_content s =
          ((pyStrip ((pySplitNl (pyStrip s)).headD [])).take 30,
            joinBody (pySplitNl (pyStrip s)))))) := by
  constructor
  · intro pre l post hsplit hpre hl ht
    have hloop : findTitleLoop (pySplitNl (pyStrip s)) =
        some (markerTitle l, pre.length + 1) := by
      rw [hsplit]
      exact findTitleLoop_marker l post pre hpre hl
    have htb : (markerTitle l).isEmpty = false := by
      cases hmt : markerTitle l with
      | nil => exact absurd hmt ht
      | cons a b => rfl
    rw [extract_of_loop_some s (markerTitle l) (pre.length + 1) hloop htb,
      hsplit, drop_len_succ]
  · intro hcase
    obtain ⟨l0, ls, hL⟩ : ∃ l0 ls, pySplitNl (pyStrip s) = l0 :: ls := by
      cases hsp : pySplitNl (pyStrip s) with
      | nil => exact absurd hsp (pySplitNl_ne_nil _)
      | cons a b => exact ⟨a, b, rfl⟩
    have hv : findTitleLoop (l0 :: ls) = none ∨
        ∃ i, findTitleLoop (l0 :: ls) = some ([], i) := by
      rcases hcase with hnone | ⟨pre, l, post, hsplit, hpre, hl, hteq⟩
      · left
        rw [← hL]
        exact findTitleLoop_no_marker _ hnone
      · right
        refine ⟨pre.length + 1, ?_⟩
        rw [← hL, hsplit, findTitleLoop_marker l post pre hpre hl, hteq]
    have hres := extract_of_falsy s l0 ls hL hv
    rw [hL]
    simp only [List.headD_cons]
    constructor
    · intro hlen
      rw [hres, if_pos hlen]
      simp
    · intro hlen
      rw [hres, if_neg hlen]

/-- Witness for C3 (amended), on the example the specification itself gives:
a marker line with remainder Foo, a blank line, then two body lines. -/
theorem c3_witness :
    extract_title_and_content ("标题：Foo\n\nBar\nBaz".data) =
      ("Foo".data, "Bar\nBaz".data) := by
  have h := (c3_extract_branches ("标题：Foo\n\nBar\nBaz".data)).1
    [] ("标题：Foo".data) [[], "Bar".data, "Baz".data]
    (by decide) (by decide) (by decide) (by decide)
  rw [h]
  decide

/-! ### Claims C4, C2, C6 -/

theorem coverRetryGo_events (ok : Nat → Bool) :
    ∀ ns : List Nat, ∀ e ∈ (coverRetryGo ok ns).2, isRetryEv e = true := by
  intro ns
  induction ns with
  | nil => intro e he; simp [coverRetryGo] at he
  | cons n rest ih =>
    intro e he
    by_cases hn : ok n = true
    · simp [coverRetryGo, hn] at he
      simp [he, isRetryEv]
    · by_cases hlt : n < 3
      · simp [coverRetryGo, hn, hlt] at he
        rcases he with he | he | he
        · simp [he, isRetryEv]
        · simp [he, isRetryEv]
        · exact ih e he
      · simp [coverRetryGo, hn, hlt] at he
        rcases he with he | he <;> simp [he, isRetryEv]

/-- Claim C4: the cover-generation retry loop (identical in
process_hot_searches and publish_directory) makes at most 3 attempts, stops
at the first success, sleeps a constant 2 seconds between consecutive failed
attempts, returns failure after 3 failed attempts, and an exhausted retry
makes the orchestrator skip the item — its trace contains no publish call
and no record write — while the outer loop continues with the remaining
items. -/
theorem c4_cover_retry (ok : Nat → Bool) :
    ((coverRetry ok).2.countP (fun e => isCoverAttempt e) ≤ 3) ∧
    (ok 1 = true → coverRetry ok = (true, [Ev.coverAttempt 1])) ∧
    (ok 1 = false → ok 2 = true →
      coverRetry ok = (true,
        [Ev.coverAttempt 1, Ev.sleepSec 2, Ev.coverAttempt 2])) ∧
    (ok 1 = false → ok 2 = false → ok 3 = true →
      coverRetry ok = (true,
        [Ev.coverAttempt 1, Ev.sleepSec 2, Ev.coverAttempt 2, Ev.sleepSec 2,
          Ev.coverAttempt 3])) ∧
    (ok 1 = false → ok 2 = false → ok 3 = false →
      coverRetry ok = (false,
        [Ev.coverAttempt 1, Ev.sleepSec 2, Ev.coverAttempt 2, Ev.sleepSec 2,
          Ev.coverAttempt 3, Ev.coverExhausted])) ∧
    ((coverRetry ok).1 = false →
      ∀ (s : ItemScript) (it : Item), s.coverOk = ok →
        ∀ e ∈ itemTrace "generate" s it,
          isPublishCall e = false ∧ isRecordEv e = false) ∧
    (∀ (env : Item → ItemScript) (cm : String) (x : Item) (xs : List Item),
      runItems env cm (x :: xs) = itemTrace cm (env x) x ++ runItems env cm xs) := by
  refine ⟨?_, ?_, ?_, ?_, ?_, ?_, ?_⟩
  · cases h1 : ok 1 <;> cases h2 : ok 2 <;> cases h3 : ok 3 <;>
      simp [coverRetry, coverRetryGo, h1, h2, h3, isCoverAttempt]
  · intro h1; simp [coverRetry, coverRetryGo, h1]
  · intro h1 h2; simp [coverRetry, coverRetryGo, h1, h2]
  · intro h1 h2 h3; simp [coverRetry, coverRetryGo, h1, h2, h3]
  · intro h1 h2 h3; simp [coverRetry, coverRetryGo, h1, h2, h3]
  · intro hfail s it hok e he
    rcases it with ⟨t?, u?⟩
    cases t? with
    | none => simp [itemTrace] at he; simp [he, isPublishCall, isRecordEv]
    | some topic =>
      cases u? with
      | none => simp [itemTrace] at he; simp [he, isPublishCall, isRecordEv]
      | some url =>
        by_cases hm : topic = "" ∨ url = ""
        · simp [itemTrace, hm] at he; simp [he, isPublishCall, isRecordEv]
        · simp only [itemTrace, if_pos, if_neg hm] at he
          by_cases hg : s.genContent = ""
          · simp [hg] at he
            rcases he with he | he <;> simp [he, isPublishCall, isRecordEv]
          · simp only [hg, if_neg, ite_false] at he
            rw [hok] at he
            simp [hfail] at he
            rcases he with he | he | he
            · simp [he, isPublishCall, isRecordEv]
            · have := coverRetryGo_events ok [1, 2, 3] e he
              cases e <;> simp [isRetryEv] at this <;>
                simp [isPublishCall, isRecordEv]
            · simp [he, isPublishCall, isRecordEv]
  · intro env cm x xs
    simp [runItems]

/-- Witness for C4: a generator failing twice then succeeding is invoked
exactly three times with a 2-second sleep between consecutive attempts. -/
theorem c4_witness :
    coverRetry (fun n => n == 3) = (true,
      [Ev.coverAttempt 1, Ev.sleepSec 2, Ev.coverAttempt 2, Ev.sleepSec 2,
        Ev.coverAttempt 3]) :=
  (c4_cover_retry (fun n => n == 3)).2.2.2.1 (by decide) (by decide) (by decide)

theorem c2_from_decomp (s : ItemScript) (title url : String) (cov : Option String)
    (tr pre : List Ev) (htr : tr = pre ++ publishPart s title url cov)
    (hpre : Ev.record url ∉ pre) :
    (Ev.record url ∈ tr ↔ s.publishOk = true) ∧
    (s.publishOk = false →
      ∃ p, tr = p ++ [Ev.publishCall title, Ev.publishErr] ∧ Ev.record url ∉ p) ∧
    (s.publishOk = true →
      ∃ p c, tr = p ++ [Ev.publishCall title, Ev.record url] ++ c ++
          [Ev.sleepPublishDelay] ∧ Ev.record url ∉ p ∧
        (∀ pth, cov = some pth → pth ≠ "" → c = [Ev.removeCover pth])) := by
  subst htr
  cases hp : s.publishOk
  · refine ⟨?_, ?_, ?_⟩
    · simp [publishPart, hp, List.mem_append, hpre]
    · intro _
      exact ⟨pre, by simp [publishPart, hp], hpre⟩
    · intro h
      simp at h
  · refine ⟨?_, ?_, ?_⟩
    · simp [publishPart, hp, List.mem_append]
    · intro h
      simp at h
    · intro _
      cases cov with
      | none =>
        refine ⟨pre, [], ?_, hpre, ?_⟩
        · simp [publishPart, hp]
        · intro pth heq
          cases heq
      | some pth =>
        refine ⟨pre, if pth ≠ "" then [Ev.removeCover pth] else [], ?_, hpre, ?_⟩
        · simp [publishPart, hp]
        · intro pth' heq hne
          cases heq
          rw [if_pos hne]

/-- Claim C2: for every work item that reaches the publish step, the record
event for its url occurs exactly when publish returns successfully; when
publish raises, the trace ends with the publish call followed by the error
log and no record is written, and the loop continues with the next item;
when publish succeeds, the trace continues record, cover-file removal (when
a generated cover path is present), then the publish-delay sleep, in that
order. -/
theorem c2_record_after_publish (cm : String) (s : ItemScript) (it : Item)
    (topic url : String) (ht : it.title = some topic) (hu : it.url = some url)
    (htn : topic ≠ "") (hun : url ≠ "") (hg : s.genContent ≠ "")
    (hcov : cm = "generate" → (coverRetry s.coverOk).1 = true) :
    (Ev.record url ∈ itemTrace cm s it ↔ s.publishOk = true) ∧
    (s.publishOk = false →
      ∃ p, itemTrace cm s it =
        p ++ [Ev.publishCall (if s.genTitle = "" then topic else s.genTitle),
          Ev.publishErr] ∧ Ev.record url ∉ p) ∧
    (s.publishOk = true →
      ∃ p c, itemTrace cm s it =
        p ++ [Ev.publishCall (if s.genTitle = "" then topic else s.genTitle),
          Ev.record url] ++ c ++ [Ev.sleepPublishDelay] ∧ Ev.record url ∉ p ∧
        (∀ pth, (if cm = "generate" then some s.coverPath else none) = some pth →
          pth ≠ "" → c = [Ev.removeCover pth])) ∧
    (∀ (env : Item → ItemScript) (x : Item) (xs : List Item),
      runItems env cm (x :: xs) = itemTrace cm (env x) x ++ runItems env cm xs) := by
  rcases it with ⟨t0, u0⟩
  have ht' : t0 = some topic := ht
  have hu' : u0 = some url := hu
  subst ht'
  subst hu'
  have hm : ¬(topic = "" ∨ url = "") := by
    intro h
    rcases h with h | h
    · exact htn h
    · exact hun h
  by_cases hcm : cm = "generate"
  · have h1 : (coverRetry s.coverOk).1 = true := hcov hcm
    have hbody : itemTrace cm s ⟨some topic, some url⟩ =
        (Ev.genArticle topic :: (coverRetry s.coverOk).2) ++
          publishPart s (if s.genTitle = "" then topic else s.genTitle) url
            (some s.coverPath) := by
      simp [itemTrace, hm, hg, hcm, h1]
    have hpre : Ev.record url ∉ Ev.genArticle topic :: (coverRetry s.coverOk).2 := by
      intro hmem
      rcases List.mem_cons.mp hmem with h | h
      · exact Ev.noConfusion h
      · have := coverRetryGo_events s.coverOk [1, 2, 3] _ h
        simp [isRetryEv] at this
    have hd := c2_from_decomp s (if s.genTitle = "" then topic else s.genTitle) url
      (some s.coverPath) _ _ hbody hpre
    refine ⟨hd.1, hd.2.1, ?_, ?_⟩
    · intro hp
      obtain ⟨p, c, he, hnp, hc⟩ := hd.2.2 hp
      exact ⟨p, c, he, hnp, fun pth heq hne => hc pth (by rw [if_pos hcm] at heq; exact heq) hne⟩
    · intro env x xs
      simp [runItems]
  · have hbody : itemTrace cm s ⟨some topic, some url⟩ =
        [Ev.genArticle topic] ++
          publishPart s (if s.genTitle = "" then topic else s.genTitle) url none := by
      simp [itemTrace, hm, hg, hcm]
    have hpre : Ev.record url ∉ [Ev.genArticle topic] := by
      intro hmem
      rcases List.mem_singleton.mp hmem with h
      exact Ev.noConfusion (List.mem_singleton.mp hmem)
    have hd := c2_from_decomp s (if s.genTitle = "" then topic else s.genTitle) url
      none _ _ hbody hpre
    refine ⟨hd.1, hd.2.1, ?_, ?_⟩
    · intro hp
      obtain ⟨p, c, he, hnp, hc⟩ := hd.2.2 hp
      refine ⟨p, c, he, hnp, fun pth heq hne => ?_⟩
      rw [if_neg hcm] at heq
      cases heq
    · intro env x xs
      simp [runItems]

/-- Witness for C2: a successful publish on the sample item records the url
immediately after the publish call, then removes the cover, then sleeps. -/
theorem c2_witness :
    Ev.record "url1" ∈ itemTrace "generate" sampleScriptOk sampleItem ↔
      sampleScriptOk.publishOk = true :=
  (c2_record_after_publish "generate" sampleScriptOk sampleItem "topic1" "url1"
    rfl rfl (by decide) (by decide) (by decide) (fun _ => by decide)).1

/-- Claim C6 is contradicted by process_hot_searches: on an item whose cover
is generated on the first attempt and whose publish then raises, the loop
body ends at the error log and never removes the generated cover file — the
artifact outlives the item — whereas the same item with a successful publish
does remove it (publish_directory, by contrast, removes the file on both
paths).  The first conjunct evaluates the loop body at the failing input,
the second checks that no removal event occurs in it, the third confirms the
cover was indeed generated, and the fourth shows the successful-publish
trace does remove the file. -/
theorem c6_cover_survives_publish_failure :
    itemTrace "generate" c6Script c6Item =
      [Ev.genArticle "t", Ev.coverAttempt 1, Ev.publishCall "T", Ev.publishErr] ∧
    (itemTrace "generate" c6Script c6Item).all (fun e => !(isRemoveCover e)) = true ∧
    c6Script.coverOk 1 = true ∧
    (itemTrace "generate" sampleScriptOk sampleItem).any isRemoveCover = true := by
  decide

/-! ### Claims C7 and C10 -/

theorem count_filterUnpublished (pub : List String) (it : Item) :
    ∀ items : List Item, (filterUnpublished pub items).count it =
      if urlMem it pub then 0 else items.count it := by
  intro items
  induction items with
  | nil => by_cases h : urlMem it pub <;> simp [filterUnpublished, h]
  | cons x xs ih =>
    simp only [filterUnpublished] at ih ⊢
    by_cases hx : urlMem x pub
    · by_cases h : urlMem it pub
      · simp [List.filter_cons, hx, ih, h]
      · have hne : x ≠ it := by
          intro he
          rw [he] at hx
          rw [hx] at h
          exact h rfl
        simp [List.filter_cons, hx, ih, h, List.count_cons, hne.symm]
    · by_cases h : urlMem it pub
      · have hne : x ≠ it := by
          intro he
          rw [he] at hx
          exact hx h
        simp [List.filter_cons, hx, ih, h, List.count_cons, hne.symm]
      · simp [List.filter_cons, hx, ih, h, List.count_cons]

/-- Claim C7: with skip_published set and a nonempty record set, the filtered
queue is a sublist of the input (relative order preserved), contains an item
with the input multiplicity when its url is not recorded and not at all when
it is, and is exactly the list the loop iterates when no limit applies. -/
theorem c7_resume_filter (items : List Item) (pub : List String) (hpub : pub ≠ []) :
    (filterUnpublished pub items).Sublist items ∧
    (∀ it : Item, (filterUnpublished pub items).count it =
      if urlMem it pub then 0 else items.count it) ∧
    selectedItems true pub none items = filterUnpublished pub items ∧
    (∀ (env : Item → ItemScript) (cm : String),
      process_hot_searches env cm true pub none items =
        runItems env cm (filterUnpublished pub items)) := by
  refine ⟨List.filter_sublist items, fun it => count_filterUnpublished pub it items, ?_, ?_⟩
  · simp [selectedItems, hpub]
  · intro env cm
    simp [process_hot_searches, selectedItems, hpub]

/-- Witness for C7: the filter drops exactly the recorded first item and the
no-limit loop iterates the filtered queue. -/
theorem c7_witness :
    selectedItems true ["ua"] none [⟨some "a", some "ua"⟩, ⟨some "b", some "ub"⟩] =
      filterUnpublished ["ua"] [⟨some "a", some "ua"⟩, ⟨some "b", some "ub"⟩] :=
  (c7_resume_filter [⟨some "a", some "ua"⟩, ⟨some "b", some "ub"⟩] ["ua"]
    (by decide)).2.2.1

theorem urlMem_nil (x : Item) : urlMem x [] = false := by
  rcases x with ⟨t0, u0⟩
  cases u0 <;> simp [urlMem]

theorem filterUnpublished_nil_pub (items : List Item) :
    filterUnpublished [] items = items := by
  simp [filterUnpublished, urlMem_nil]

/-- Claim C10: with skip_published set and a truthy limit n, the iterated
list is a prefix of the resume-filtered queue of length min n (filtered
length) — the limit counts unpublished items, not raw input positions —
and every iterated item is unpublished. -/
theorem c10_limit_after_filter (items : List Item) (pub : List String) (n : Nat)
    (hn : n ≠ 0) :
    (∃ rest, filterUnpublished pub items =
      selectedItems true pub (some n) items ++ rest) ∧
    (selectedItems true pub (some n) items).length =
      min n (filterUnpublished pub items).length ∧
    (∀ it ∈ selectedItems true pub (some n) items, urlMem it pub = false) := by
  have hsel : selectedItems true pub (some n) items =
      (filterUnpublished pub items).take n := by
    by_cases hp : pub = []
    · simp [selectedItems, hp, hn, filterUnpublished_nil_pub]
    · simp [selectedItems, hp, hn]
  refine ⟨⟨(filterUnpublished pub items).drop n, ?_⟩, ?_, ?_⟩
  · rw [hsel, List.take_append_drop]
  · rw [hsel, List.length_take]
  · intro it hit
    rw [hsel] at hit
    have hmem := List.take_subset n _ hit
    have := List.of_mem_filter hmem
    simpa using this

/-- Witness for C10: with the first raw item already published and limit 1,
one unpublished item is still selected. -/
theorem c10_witness :
    (selectedItems true ["ua"] (some 1)
        [⟨some "a", some "ua"⟩, ⟨some "b", some "ub"⟩]).length =
      min 1 (filterUnpublished ["ua"]
        [⟨some "a", some "ua"⟩, ⟨some "b", some "ub"⟩]).length :=
  (c10_limit_after_filter [⟨some "a", some "ua"⟩, ⟨some "b", some "ub"⟩] ["ua"] 1
    (by decide)).2.1

/-! ### Claims C8 and C9 -/

theorem load_ok_shape (f : RecFile) (published : List RecEntry) (w : Bool)
    (h : load_published_records f = RecLoad.ok published w) :
    published.Nodup ∧ ∀ e ∈ published, isUnhashableEntry e = false := by
  have hfromArr : ∀ xs : List RecEntry,
      (match pySetOfEntries xs with
       | some s => RecLoad.ok s false
       | none => RecLoad.typeError) = RecLoad.ok published w →
      published.Nodup ∧ ∀ e ∈ published, isUnhashableEntry e = false := by
    intro xs hx
    by_cases ha : xs.any isUnhashableEntry = true
    · simp [pySetOfEntries, ha] at hx
    · rw [Bool.not_eq_true] at ha
      simp [pySetOfEntries, ha] at hx
      obtain ⟨h1, h2⟩ := hx
      subst h1
      constructor
      · exact List.nodup_dedup xs
      · intro e he
        have hexs : e ∈ xs := List.mem_dedup.mp he
        have := List.any_eq_false.mp ha e hexs
        rw [Bool.not_eq_true] at this
        exact this
  cases f with
  | missing =>
    simp [load_published_records] at h
    obtain ⟨h1, h2⟩ := h
    subst h1
    simp
  | unreadable =>
    simp [load_published_records] at h
    obtain ⟨h1, h2⟩ := h
    subst h1
    simp
  | jsonOther =>
    simp [load_published_records] at h
    obtain ⟨h1, h2⟩ := h
    subst h1
    simp
  | jsonList xs => exact hfromArr xs h
  | jsonUrls v =>
    cases v with
    | arr xs => exact hfromArr xs h
    | strVal s =>
      simp [load_published_records] at h
      obtain ⟨h1, h2⟩ := h
      subst h1
      constructor
      · exact List.nodup_dedup _
      · intro e he
        obtain ⟨c, _, hc⟩ := List.mem_map.mp (List.mem_dedup.mp he)
        rw [← hc]
        rfl
    | keys ks =>
      simp [load_published_records] at h
      obtain ⟨h1, h2⟩ := h
      subst h1
      constructor
      · exact List.nodup_dedup _
      · intro e he
        obtain ⟨c, _, hc⟩ := List.mem_map.mp (List.mem_dedup.mp he)
        rw [← hc]
        rfl
    | nonIterable => simp [load_published_records] at h

/-- Claim C8 is false as stated: it quantifies over every prior state of the
record file, but on a file holding a JSON array with an unhashable element
(such as a list containing an object) the reload inside save_published_record
raises an uncaught TypeError — the except clause of the loader catches only
JSONDecodeError and OSError — so save propagates the error and writes
nothing back. -/
theorem c8_counterexample :
    load_published_records (RecFile.jsonList [RecEntry.unhashable 0]) =
      RecLoad.typeError ∧
    save_published_record "u" (RecFile.jsonList [RecEntry.unhashable 0]) = none := by
  decide

/-- Claim C8 (amended): for every identifier and every prior file state whose
reload does not raise, save_published_record re-reads the persisted set,
inserts the identifier, and writes the full set back as a plain JSON array —
duplicate-free, with exactly one occurrence of the identifier, holding
exactly the reloaded elements plus the identifier — and a second add of the
same identifier is the identity on the file state.  On a prior state whose
reload raises TypeError (an array with an unhashable element, or a
non-iterable urls value), save propagates the error and writes nothing. -/
theorem c8_record_add (f : RecFile) (url : String) :
    (∀ (published : List RecEntry) (w : Bool),
      load_published_records f = RecLoad.ok published w →
      ∃ xs : List RecEntry,
        save_published_record url f = some (RecFile.jsonList xs) ∧ xs.Nodup ∧
        xs.count (RecEntry.str url) = 1 ∧
        (∀ y, y ∈ xs ↔ y ∈ published ∨ y = RecEntry.str url) ∧
        save_published_record url (RecFile.jsonList xs) =
          some (RecFile.jsonList xs)) ∧
    (load_published_records f = RecLoad.typeError →
      save_published_record url f = none) := by
  constructor
  · intro published w hload
    obtain ⟨hnd, hhash⟩ := load_ok_shape f published w hload
    have hsecond : ∀ xs : List RecEntry, xs.Nodup →
        (∀ e ∈ xs, isUnhashableEntry e = false) → RecEntry.str url ∈ xs →
        save_published_record url (RecFile.jsonList xs) =
          some (RecFile.jsonList xs) := by
      intro xs hxnd hxhash hxmem
      have hany : xs.any isUnhashableEntry = false := by
        rw [List.any_eq_false]
        intro e he
        rw [Bool.not_eq_true]
        exact hxhash e he
      have hload2 : load_published_records (RecFile.jsonList xs) =
          RecLoad.ok xs false := by
        simp [load_published_records, pySetOfEntries, hany,
          List.dedup_eq_self.mpr hxnd]
      simp [save_published_record, hload2, hxmem]
    by_cases hmem : RecEntry.str url ∈ published
    · refine ⟨published, ?_, hnd, List.count_eq_one_of_mem hnd hmem, ?_, ?_⟩
      · simp [save_published_record, hload, hmem]
      · intro y
        constructor
        · intro hy
          exact Or.inl hy
        · intro hy
          rcases hy with hy | hy
          · exact hy
          · rw [hy]
            exact hmem
      · exact hsecond published hnd hhash hmem
    · refine ⟨published ++ [RecEntry.str url], ?_, ?_, ?_, ?_, ?_⟩
      · simp [save_published_record, hload, hmem]
      · refine List.Nodup.append hnd (List.nodup_singleton _) ?_
        intro a ha hb
        rw [List.mem_singleton.mp hb] at ha
        exact hmem ha
      · rw [List.count_append]
        have h0 : published.count (RecEntry.str url) = 0 :=
          List.count_eq_zero.mpr hmem
        simp [h0]
      · intro y
        simp [List.mem_append]
      · refine hsecond (published ++ [RecEntry.str url]) ?_ ?_ (by simp)
        · refine List.Nodup.append hnd (List.nodup_singleton _) ?_
          intro a ha hb
          rw [List.mem_singleton.mp hb] at ha
          exact hmem ha
        · intro e he
          rcases List.mem_append.mp he with he | he
          · exact hhash e he
          · rw [List.mem_singleton.mp he]
            rfl
  · intro h
    simp [save_published_record, h]

/-- Witness for C8 (amended): adding u to a record file holding the array
with the single string a writes back a two-element duplicate-free array with
exactly one occurrence of u, and adding u again changes nothing. -/
theorem c8_witness :
    ∃ xs : List RecEntry,
      save_published_record "u" (RecFile.jsonList [RecEntry.str "a"]) =
        some (RecFile.jsonList xs) ∧ xs.Nodup ∧
      xs.count (RecEntry.str "u") = 1 ∧
      (∀ y, y ∈ xs ↔ y ∈ [RecEntry.str "a"] ∨ y = RecEntry.str "u") ∧
      save_published_record "u" (RecFile.jsonList xs) =
        some (RecFile.jsonList xs) :=
  (c8_record_add (RecFile.jsonList [RecEntry.str "a"]) "u").1
    [RecEntry.str "a"] false (by decide)

/-- Claim C9 is false as stated: a missing record or cache file yields the
empty state with no warning; a record file holding an object whose urls
value is a number, or an array containing an unhashable element, makes
load_published_records raise an uncaught TypeError instead of returning an
empty set (so wrong-shaped persistence is fatal on the resume path, which
calls the loader outside any try); and an array of numbers loads as a
warning-free non-empty set of non-strings. -/
theorem c9_counterexample :
    load_published_records RecFile.missing = RecLoad.ok [] false ∧
    load_selector_cache CacheFile.missing = (LoadedCache.map [], false) ∧
    load_published_records (RecFile.jsonUrls UrlsVal.nonIterable) =
      RecLoad.typeError ∧
    load_published_records (RecFile.jsonList [RecEntry.unhashable 0]) =
      RecLoad.typeError ∧
    load_published_records (RecFile.jsonList [RecEntry.other 0, RecEntry.other 1]) =
      RecLoad.ok [RecEntry.other 0, RecEntry.other 1] false := by
  decide

/-- Claim C9 (amended): a missing file yields the empty state silently; an
unreadable or unparseable file yields the empty state after a warning, as
does a parseable record file that is neither a list nor an object with a
urls key; a record array whose elements are all hashable loads as the set of
those elements with no warning even when they are not strings; a record
array containing an unhashable element, or a urls value that is not
iterable, makes load_published_records raise an uncaught TypeError — such
corruption is fatal on the resume path; load_selector_cache never raises and
returns a parseable non-object file as parsed, without a warning. -/
theorem c9_load_degrades (f : RecFile) (g : CacheFile) :
    (f = RecFile.missing → load_published_records f = RecLoad.ok [] false) ∧
    (f = RecFile.unreadable ∨ f = RecFile.jsonOther →
      load_published_records f = RecLoad.ok [] true) ∧
    (∀ xs, f = RecFile.jsonList xs → xs.any isUnhashableEntry = false →
      load_published_records f = RecLoad.ok xs.dedup false) ∧
    (∀ xs, f = RecFile.jsonList xs → xs.any isUnhashableEntry = true →
      load_published_records f = RecLoad.typeError) ∧
    (f = RecFile.jsonUrls UrlsVal.nonIterable →
      load_published_records f = RecLoad.typeError) ∧
    (∀ xs, f = RecFile.jsonUrls (UrlsVal.arr xs) →
      xs.any isUnhashableEntry = true →
      load_published_records f = RecLoad.typeError) ∧
    (g = CacheFile.missing → load_selector_cache g = (LoadedCache.map [], false)) ∧
    (g = CacheFile.unreadable → load_selector_cache g = (LoadedCache.map [], true)) ∧
    (g = CacheFile.jsonNonObj → load_selector_cache g = (LoadedCache.nonObj, false)) := by
  refine ⟨?_, ?_, ?_, ?_, ?_, ?_, ?_, ?_, ?_⟩
  · intro h
    rw [h]
    rfl
  · intro h
    rcases h with h | h <;> rw [h] <;> rfl
  · intro xs h ha
    rw [h]
    simp [load_published_records, pySetOfEntries, ha]
  · intro xs h ha
    rw [h]
    simp [load_published_records, pySetOfEntries, ha]
  · intro h
    rw [h]
    rfl
  · intro xs h ha
    rw [h]
    simp [load_published_records, pySetOfEntries, ha]
  · intro h
    rw [h]
    rfl
  · intro h
    rw [h]
    rfl
  · intro h
    rw [h]
    rfl

/-- Witness for C9 (amended): a record array containing an unhashable
element makes the loader raise. -/
theorem c9_witness :
    load_published_records (RecFile.jsonList [RecEntry.unhashable 0]) =
      RecLoad.typeError :=
  (c9_load_degrades (RecFile.jsonList [RecEntry.unhashable 0])
    CacheFile.missing).2.2.2.1 [RecEntry.unhashable 0] rfl (by decide)

/-! ### Claim C5 -/

/-- Claim C5 is false as stated: when the cover-upload confirmation button
fails to resolve, the source logs at debug level, not warning — the step
emits no warning-level event at all. -/
theorem c5_counterexample :
    confirm_cover_upload (fun _ => false) =
      [SEv.log Lvl.debug "cover_confirm_missing"] ∧
    (confirm_cover_upload (fun _ => false)).all (fun e => !(isWarnEv e)) = true := by
  decide

/-- Claim C5 (amended): failing to locate the preview-and-publish button
raises and aborts publish for the work item; failing to locate the
confirm-publish button or the single-cover-mode switch only logs a warning,
and failing to locate the cover-upload confirmation button only logs a debug
message; in each of those three cases the publish flow continues to
completion without raising. -/
theorem c5_submit_asymmetry (found : String → Bool) (hasCover useCover : Bool) :
    (found "preview_publish_btn" = false →
      (publish_flow found hasCover useCover).1 = true) ∧
    (found "preview_publish_btn" = true →
      (publish_flow found hasCover useCover).1 = false ∧
      (found "confirm_publish_btn" = false →
        SEv.log Lvl.warn "confirm_publish_missing" ∈
          (publish_flow found hasCover useCover).2)) ∧
    (hasCover = true → useCover = true → found "single_cover_mode" = false →
      SEv.log Lvl.warn "single_cover_switch_missing" ∈
        (publish_flow found hasCover useCover).2) ∧
    (hasCover = true → useCover = true → found "cover_upload_input" = true →
      found "cover_upload_confirm" = false →
      SEv.log Lvl.debug "cover_confirm_missing" ∈
        (publish_flow found hasCover useCover).2) := by
  refine ⟨?_, ?_, ?_, ?_⟩
  · intro hp
    simp [publish_flow, submit_step, hp]
  · intro hp
    constructor
    · by_cases hcc : found "confirm_publish_btn" = true <;>
        simp [publish_flow, submit_step, hp, hcc]
    · intro hc
      by_cases hcc : found "confirm_publish_btn" = true
      · rw [hcc] at hc; cases hc
      · simp [publish_flow, submit_step, hp, hc]
  · intro hhc huc hsc
    subst hhc
    subst huc
    simp [publish_flow, upload_cover_image, ensure_single_cover_mode, hsc]
  · intro hhc huc hin hconf
    subst hhc
    subst huc
    simp [publish_flow, upload_cover_image, confirm_cover_upload, hin, hconf]

/-- Witness for C5 (amended): with every role unavailable the missing
preview-and-publish button makes the flow raise. -/
theorem c5_witness : (publish_flow (fun _ => false) true true).1 = true :=
  (c5_submit_asymmetry (fun _ => false) true true).1 rfl
